import Mathlib

/-!
Verification development for the ReviewBot analysis pipeline.

Shallow embedding of the repository's core analysis logic:
scoring (src/backend/utils/scoring.js), the diff model builder
(src/backend/utils/diffParser.js), the security analyzer, the
complexity analyzer, the static-analyzer/orchestrator aggregation
(src/backend/webhookHandler.js) and the AI-assisted analyzer
(src/backend/analyzers/aiReviewer.js).

JavaScript runtime conventions used throughout the embedding:
machine numbers are modelled as Nat/Int (every number manipulated by
the embedded code is an integer); `undefined`/missing values are
modelled as `Option.none`; string truthiness is `s != ""`; number
truthiness is `n != 0`.
-/

namespace ReviewBot

/-- Char-list version of "needle is a leading segment of hay",
used to embed JavaScript's `String.prototype.startsWith` and
`String.prototype.includes`. -/
def charsLead : List Char → List Char → Bool
  | [], _ => true
  | _ :: _, [] => false
  | c :: cs, h :: hs => c = h && charsLead cs hs

/-- Embeds JavaScript `hay.includes(needle)` (substring containment). -/
def charsContain : List Char → List Char → Bool
  | hay, needle =>
    if charsLead needle hay then true
    else match hay with
      | [] => false
      | _ :: t => charsContain t needle

/-- JavaScript `s.includes(sub)`. -/
def strContains (s sub : String) : Bool := charsContain s.data sub.data

/-- JavaScript `s.startsWith(sub)`. -/
def strStarts (s sub : String) : Bool := charsLead sub.data s.data

/-- The whitespace class used by JavaScript string/regex operations
(restricted to the ASCII whitespace characters, which are the only
ones the analyzed sources can produce). -/
def jsSpace (c : Char) : Bool :=
  c = ' ' || c = '\t' || c = '\n' || c = '\r' || c = '\x0b' || c = '\x0c'

/-- JavaScript `s.trim()`. -/
def jsTrim (s : String) : String :=
  ⟨((s.data.dropWhile jsSpace).reverse.dropWhile jsSpace).reverse⟩

/-- Split a character list at newline characters, keeping empty
segments (the accumulator holds the current segment reversed). -/
def splitLinesAux : List Char → List Char → List String
  | [], acc => [⟨acc.reverse⟩]
  | c :: cs, acc =>
    if c = '\n' then ⟨acc.reverse⟩ :: splitLinesAux cs []
    else splitLinesAux cs (c :: acc)

/-- JavaScript `content.split("\n")`: every newline separates, empty
segments are kept, the empty string yields one empty segment. -/
def splitLines (s : String) : List String := splitLinesAux s.data []

/-- Truthiness of a JS string stored as `Option String`
(`undefined`/`null` and the empty string are falsy), embedding the
`if (!file.content) continue` guards of the analyzers. -/
def contentTruthy : Option String → Bool
  | some c => c ≠ ""
  | none => false

/-- An Issue record as constructed by the analyzers
(`path`, `line`, `severity`, `category`, `title`, `description`,
optional `suggestion`/`documentation`, `language`).  `line` is an
`Int` because AI-sourced issues copy an arbitrary JSON number. -/
structure Issue where
  path : String
  line : Int
  severity : String
  category : String
  title : String
  description : String
  suggestion : Option String := none
  documentation : Option String := none
  language : Option String := none
deriving DecidableEq

/-- A changed file as the scoring function and the analyzers see it
(`path`, `additions`, fetched `content` or absent, detected
`language`). -/
structure RFile where
  path : String
  additions : Nat
  content : Option String
  language : String
deriving DecidableEq

/-- `severityPenalties[issue.severity] || 2` from scoring.js:
critical 25, high 10, medium 4, low 1, anything else 2. -/
def severityPenalty (sev : String) : Int :=
  if sev = "critical" then 25
  else if sev = "high" then 10
  else if sev = "medium" then 4
  else if sev = "low" then 1
  else 2

/-- `const totalLinesAdded = files.reduce((sum, f) => sum + f.additions, 0)`
from scoring.js. -/
def totalLinesAdded (files : List RFile) : Int :=
  files.foldl (fun s f => s + (f.additions : Int)) 0

/-- `const hasTestChanges = files.some(f => f.path.includes("test") || ...)`
from scoring.js. -/
def hasTestChanges (files : List RFile) : Bool :=
  files.any fun f =>
    strContains f.path "test" || strContains f.path "spec" ||
      strContains f.path "__tests__"

/-- The running `score` after the per-issue deduction loop of
`calculateScore`: start at 100, subtract the severity-keyed penalty for
each issue in order. -/
def scoreAfterIssues (issues : List Issue) : Int :=
  issues.foldl (fun s i => s - severityPenalty i.severity) 100

/-- The large-PR adjustment of `calculateScore`:
`if (totalLinesAdded > 200) score -= 5`. -/
def sizeAdjusted (s : Int) (files : List RFile) : Int :=
  if totalLinesAdded files > 200 then s - 5 else s

/-- The test-file adjustment of `calculateScore`:
`if (!hasTestChanges && totalLinesAdded > 50) score -= 15;
else if (hasTestChanges) score += 5`. -/
def testAdjusted (s : Int) (files : List RFile) : Int :=
  if !hasTestChanges files && totalLinesAdded files > 50 then s - 15
  else if hasTestChanges files then s + 5
  else s

/-- The running total of `calculateScore` (scoring.js) just before the
final clamp: the three adjustment stages applied in the source's order. -/
def preClampScore (issues : List Issue) (files : List RFile) : Int :=
  testAdjusted (sizeAdjusted (scoreAfterIssues issues) files) files

/-- `calculateScore` from scoring.js:
`Math.max(0, Math.min(100, Math.round(score)))`.  All inputs are
integers, so `Math.round` is the identity and is omitted. -/
def calculateScore (issues : List Issue) (files : List RFile) : Int :=
  max 0 (min 100 (preClampScore issues files))

/-! ## Orchestrator aggregation (webhookHandler.js, Step 5)

The handler destructures `[staticIssues, securityIssues,
complexityIssues, aiReviews]` from the awaited analyzer array and
combines them as `[...staticIssues, ...securityIssues,
...complexityIssues, ...aiReviews]`. -/

/-- The aggregate Issue list of one pull-request event, in the spread
order of webhookHandler.js Step 5. -/
def combineIssues (staticIssues securityIssues complexityIssues aiReviews : List Issue) :
    List Issue :=
  staticIssues ++ securityIssues ++ complexityIssues ++ aiReviews

/-! ## Finding presenter: the inline-comment batch
(`postReviewComments` and `formatIssueComment` in webhookHandler.js). -/

/-- The filter `issues.filter((issue) => issue.line && issue.path)`:
JS truthiness of the two fields. -/
def qualifiesForComment (i : Issue) : Bool :=
  i.line ≠ 0 && i.path ≠ ""

/-- `icons[issue.severity]` interpolated into a template literal; a
missing key renders as the text "undefined". -/
def iconFor (sev : String) : String :=
  if sev = "critical" then "🔴"
  else if sev = "high" then "🟠"
  else if sev = "medium" then "🟡"
  else if sev = "low" then "⚪"
  else "undefined"

/-- `categories[issue.category] || issue.category.toUpperCase()`. -/
def categoryLabel (cat : String) : String :=
  if cat = "security" then "🔒 SECURITY"
  else if cat = "bug" then "🐛 BUG"
  else if cat = "performance" then "⚡ PERFORMANCE"
  else if cat = "quality" then "💡 CODE QUALITY"
  else if cat = "style" then "🎨 STYLE"
  else cat.toUpper

/-- `formatIssueComment` from webhookHandler.js: header line,
description, optional fenced suggestion, optional documentation link.
The `if (issue.suggestion)` / `if (issue.documentation)` guards are JS
truthiness (absent or empty string skips the block). -/
def formatIssueComment (i : Issue) : String :=
  let c1 := iconFor i.severity ++ " **" ++ categoryLabel i.category ++ ":** " ++
    i.title ++ "\n\n" ++ i.description ++ "\n\n"
  let c2 :=
    if contentTruthy i.suggestion then
      c1 ++ "**💡 Suggested Fix:**\n```" ++ (i.language.getD "") ++ "\n" ++
        i.suggestion.getD "" ++ "\n```\n\n"
    else c1
  if contentTruthy i.documentation then
    c2 ++ "📚 [Learn more](" ++ i.documentation.getD "" ++ ")\n"
  else c2

/-- One entry of the `comments` array passed to
`octokit.pulls.createReview`. -/
structure ReviewComment where
  path : String
  line : Int
  body : String
deriving DecidableEq

/-- `comments.map` body of `postReviewComments`. -/
def toReviewComment (i : Issue) : ReviewComment :=
  ⟨i.path, i.line, formatIssueComment i⟩

/-- The inline-comment batch `postReviewComments` hands to the hosting
API: filter on truthy line and path, map to comment records, then
`comments.slice(0, 30)`.  The network call itself is an external
collaborator and is not modelled. -/
def postReviewComments (issues : List Issue) : List ReviewComment :=
  ((issues.filter qualifiesForComment).map toReviewComment).take 30

/-! ## A JavaScript-regex evaluator

The security and complexity analyzers drive regular expressions through
`RegExp.prototype.test` and `String.prototype.match`.  The embedding
evaluates a regex abstract syntax tree with a backtracking matcher in
continuation-passing style (alternation is ordered left-to-right, `*`
is greedy, `*?` is lazy — the backtracking order of the JS engine), and
reproduces the statefulness of `test` on a `/g/` regex: the search
starts at the regex object's `lastIndex`, a hit stores the match end
back into `lastIndex`, a miss resets it to 0. -/

/-- Regex abstract syntax: exactly the constructs the repository's
regex literals use. -/
inductive Regex where
  | epsilon
  | lit (c : Char)         -- an exact character
  | litCI (c : Char)       -- a character under the `/i` flag
  | anyChar                -- `.` (anything but a newline)
  | wordChar               -- `\w`
  | spaceChar              -- `\s`
  | alnumChar              -- the class `[A-Za-z0-9]`
  | inSet (cs : List Char)     -- a character class
  | notInSet (cs : List Char)  -- a negated character class
  | cat (a b : Regex)
  | alt (a b : Regex)      -- ordered alternation
  | starGreedy (r : Regex) -- `*`
  | starLazy (r : Regex)   -- `*?`
  | opt (r : Regex)        -- `?` (greedy)
  | wordB                  -- `\b`
  | negLook (r : Regex)    -- `(?! ... )`
deriving DecidableEq

/-- JS `\w`: `[A-Za-z0-9_]`. -/
def isWordChar (c : Char) : Bool := c.isAlpha || c.isDigit || c = '_'

/-- `[A-Za-z0-9]`. -/
def isAlnumChar (c : Char) : Bool := c.isAlpha || c.isDigit

/-- Attempt to match `re` at position `i` of `s`, calling the
continuation `k` with the position after the match; the first success
in JS backtracking order wins.  `fuel` only bounds the recursion depth
(it decreases at every step and `matchFuel` below is far larger than
any depth the embedded patterns can reach). -/
def matchesAt : Nat → List Char → Regex → Nat → (Nat → Option Nat) → Option Nat
  | 0, _, _, _, _ => none
  | fuel + 1, s, re, i, k =>
    match re with
    | .epsilon => k i
    | .lit c =>
      match s.get? i with
      | some c0 => if c0 = c then k (i + 1) else none
      | none => none
    | .litCI c =>
      match s.get? i with
      | some c0 => if c0.toLower = c.toLower then k (i + 1) else none
      | none => none
    | .anyChar =>
      match s.get? i with
      | some c0 => if c0 = '\n' then none else k (i + 1)
      | none => none
    | .wordChar =>
      match s.get? i with
      | some c0 => if isWordChar c0 then k (i + 1) else none
      | none => none
    | .spaceChar =>
      match s.get? i with
      | some c0 => if jsSpace c0 then k (i + 1) else none
      | none => none
    | .alnumChar =>
      match s.get? i with
      | some c0 => if isAlnumChar c0 then k (i + 1) else none
      | none => none
    | .inSet cs =>
      match s.get? i with
      | some c0 => if cs.contains c0 then k (i + 1) else none
      | none => none
    | .notInSet cs =>
      match s.get? i with
      | some c0 => if cs.contains c0 then none else k (i + 1)
      | none => none
    | .cat a b => matchesAt fuel s a i (fun j => matchesAt fuel s b j k)
    | .alt a b =>
      match matchesAt fuel s a i k with
      | some e => some e
      | none => matchesAt fuel s b i k
    | .starGreedy r =>
      match matchesAt fuel s r i
          (fun j => if i < j then matchesAt fuel s (.starGreedy r) j k else none) with
      | some e => some e
      | none => k i
    | .starLazy r =>
      match k i with
      | some e => some e
      | none => matchesAt fuel s r i
          (fun j => if i < j then matchesAt fuel s (.starLazy r) j k else none)
    | .opt r =>
      match matchesAt fuel s r i k with
      | some e => some e
      | none => k i
    | .wordB =>
      let left := match i with
        | 0 => false
        | j + 1 =>
          match s.get? j with
          | some c0 => isWordChar c0
          | none => false
      let right := match s.get? i with
        | some c0 => isWordChar c0
        | none => false
      if left != right then k i else none
    | .negLook r =>
      match matchesAt fuel s r i some with
      | some _ => none
      | none => k i

/-- Fuel that dominates the matcher's recursion depth on `s` for every
pattern of the repository. -/
def matchFuel (s : List Char) : Nat := 4 * s.length + 400

/-- The end position of a match of `re` starting exactly at `i`, if any. -/
def reMatchEnd (s : List Char) (re : Regex) (i : Nat) : Option Nat :=
  matchesAt (matchFuel s) s re i some

/-- Scan forward from `i` for the leftmost match, as `RegExpExec` does
for a non-sticky regex: `(start, end)` of the first match at or after
`i`. -/
def reFindAux (s : List Char) (re : Regex) : Nat → Nat → Option (Nat × Nat)
  | 0, _ => none
  | fuel + 1, i =>
    match reMatchEnd s re i with
    | some e => some (i, e)
    | none => if s.length ≤ i then none else reFindAux s re fuel (i + 1)

/-- Leftmost match of `re` in `s` at or after position `i` (`none` when
`i` is past the end, as `RegExpExec` fails when `lastIndex > length`). -/
def reFindFrom (s : List Char) (re : Regex) (i : Nat) : Option (Nat × Nat) :=
  if s.length < i then none else reFindAux s re (s.length + 1 - i) i

/-- `re.test(line)` for a `/g/` regex with state `lastIndex`: returns
the boolean and the new `lastIndex` (match end on a hit, 0 on a miss). -/
def testG (re : Regex) (line : String) (lastIndex : Nat) : Bool × Nat :=
  match reFindFrom line.data re lastIndex with
  | some (_, e) => (true, e)
  | none => (false, 0)

/-- Counts matches like `(line.match(re) || []).length` for a `/g/`
regex: all non-overlapping matches from position 0 (an empty match
advances by one, per `AdvanceStringIndex`); `String.prototype.match`
leaves no observable `lastIndex` state behind. -/
def countMatchesAux (s : List Char) (re : Regex) : Nat → Nat → Nat
  | 0, _ => 0
  | fuel + 1, i =>
    match reFindFrom s re i with
    | none => 0
    | some (p, e) => 1 + countMatchesAux s re fuel (if e ≤ p then p + 1 else e)

/-- Number of matches `String.prototype.match` reports for a `/g/` regex. -/
def countMatches (re : Regex) (line : String) : Nat :=
  countMatchesAux line.data re (line.data.length + 1) 0

/-- Concatenation of a list of regexes. -/
def rcat : List Regex → Regex
  | [] => .epsilon
  | [r] => r
  | r :: rs => .cat r (rcat rs)

/-- A case-sensitive literal string. -/
def rstr (cs : String) : Regex := rcat (cs.data.map .lit)

/-- A literal string under the `/i` flag. -/
def rstrCI (cs : String) : Regex := rcat (cs.data.map .litCI)

/-- Ordered alternation of a list of regexes (left to right). -/
def ralts : List Regex → Regex
  | [] => .epsilon
  | [r] => r
  | r :: rs => .alt r (ralts rs)

/-- `r+` (greedy). -/
def rplus (r : Regex) : Regex := .cat r (.starGreedy r)

/-- An exactly-n-fold repetition, for bounded quantifiers. -/
def rrep (r : Regex) : Nat → Regex
  | 0 => .epsilon
  | n + 1 => .cat r (rrep r n)

/-! ## Security analyzer (securityAnalyzer.js)

The catalog is built fresh on each call of `analyzeSecurityIssues`, but
every regex carries the `/g/` flag and is probed with `test`, so its
`lastIndex` persists from line to line (and file to file) within one
call. -/

/-- The quote class `[`'"]` occurring in several signatures. -/
def quoteSet : List Char := ['\x60', '\x27', '\x22']

/-- One entry of the `securityPatterns` catalog. -/
structure SecPattern where
  pattern : Regex
  title : String
  description : String
  severity : String
  suggestion : Option String := none
  documentation : Option String := none

/-- `/eval\s*\(/gi` -/
def reEval : Regex := rcat [rstrCI "eval", .starGreedy .spaceChar, .litCI '(']

/-- `/(?:SELECT|INSERT|UPDATE|DELETE).*?[`'"]\s*\+\s*\w+/gi` -/
def reSqlConcat : Regex := rcat
  [ralts [rstrCI "SELECT", rstrCI "INSERT", rstrCI "UPDATE", rstrCI "DELETE"],
   .starLazy .anyChar, .inSet quoteSet, .starGreedy .spaceChar, .litCI '+',
   .starGreedy .spaceChar, rplus .wordChar]

/-- `/innerHTML\s*=\s*[^'"`]/gi` -/
def reInnerHTML : Regex := rcat
  [rstrCI "innerHTML", .starGreedy .spaceChar, .litCI '=', .starGreedy .spaceChar,
   .notInSet ['\x27', '\x22', '\x60']]

/-- `/password.*?=.*?['"`]\w+['"`]/gi` -/
def rePassword : Regex := rcat
  [rstrCI "password", .starLazy .anyChar, .litCI '=', .starLazy .anyChar,
   .inSet ['\x27', '\x22', '\x60'], rplus .wordChar, .inSet ['\x27', '\x22', '\x60']]

/-- `/api[_-]?key.*?=.*?['"`][A-Za-z0-9]{20,}['"`]/gi` -/
def reApiKey : Regex := rcat
  [rstrCI "api", .opt (.inSet ['_', '-']), rstrCI "key", .starLazy .anyChar,
   .litCI '=', .starLazy .anyChar, .inSet ['\x27', '\x22', '\x60'],
   rrep .alnumChar 20, .starGreedy .alnumChar, .inSet ['\x27', '\x22', '\x60']]

/-- `/Math\.random\(\)/gi` -/
def reMathRandom : Regex := rstrCI "Math.random()"

/-- `/exec\s*\(/gi` -/
def reExec : Regex := rcat [rstrCI "exec", .starGreedy .spaceChar, .litCI '(']

/-- `/\.\.\/|\.\.\\(?!node_modules)/gi` -/
def rePathTraversal : Regex :=
  .alt (rstrCI "../") (.cat (rstrCI "..\\") (.negLook (rstrCI "node_modules")))

/-- The first catalog entry of securityAnalyzer.js. -/
def evalEntry : SecPattern :=
  { pattern := reEval,
     title := "Dangerous eval() usage",
     description := "Using `eval()` can execute arbitrary code and is a major security risk. Avoid it entirely.",
     severity := "critical",
     documentation := some "https://developer.mozilla.org/en-US/docs/Web/JavaScript/Reference/Global_Objects/eval#never_use_eval!" }

/-- The SQL-concatenation catalog entry. -/
def sqlEntry : SecPattern :=
  { pattern := reSqlConcat,
     title := "Possible SQL Injection",
     description := "String concatenation in SQL queries can lead to SQL injection. Use parameterized queries instead.",
     severity := "critical",
     suggestion := some "Use prepared statements:\nconst query = \"SELECT * FROM users WHERE id = ?\";\ndb.execute(query, [userId]);",
     documentation := some "https://owasp.org/www-community/attacks/SQL_Injection" }

/-- The innerHTML catalog entry. -/
def innerHTMLEntry : SecPattern :=
  { pattern := reInnerHTML,
     title := "XSS vulnerability via innerHTML",
     description := "Setting innerHTML with unsanitized user input can lead to XSS attacks. Use textContent or sanitize input.",
     severity := "high",
     suggestion := some "element.textContent = userInput; // Safe\n// OR use a library like DOMPurify.sanitize(userInput)",
     documentation := some "https://owasp.org/www-community/attacks/xss/" }

/-- The hardcoded-password catalog entry. -/
def passwordEntry : SecPattern :=
  { pattern := rePassword,
     title := "Hardcoded password detected",
     description := "Passwords should never be hardcoded. Use environment variables or secure vaults.",
     severity := "critical",
     suggestion := some "const password = process.env.DB_PASSWORD;",
     documentation := some "https://owasp.org/www-project-top-ten/2017/A3_2017-Sensitive_Data_Exposure" }

/-- The exposed-API-key catalog entry. -/
def apiKeyEntry : SecPattern :=
  { pattern := reApiKey,
     title := "Exposed API key",
     description := "API keys or sensitive tokens should be stored in environment variables, not directly in code.",
     severity := "critical",
     suggestion := some "const apiKey = process.env.API_KEY;" }

/-- The weak-randomness catalog entry. -/
def mathRandomEntry : SecPattern :=
  { pattern := reMathRandom,
     title := "Weak randomness for security",
     description := "Math.random() is not cryptographically secure. Use `crypto.randomBytes()` or similar for security purposes (e.g., tokens).",
     severity := "medium",
     suggestion := some "const crypto = require(\"crypto\");\nconst token = crypto.randomBytes(32).toString(\"hex\");" }

/-- The command-injection catalog entry. -/
def execEntry : SecPattern :=
  { pattern := reExec,
     title := "Command injection risk",
     description := "Using `exec()` with user input can lead to command injection. Sanitize input or use safer alternatives like `spawn`.",
     severity := "critical",
     documentation := some "https://owasp.org/www-community/attacks/Command_Injection" }

/-- The path-traversal catalog entry. -/
def pathTraversalEntry : SecPattern :=
  { pattern := rePathTraversal,
     title := "Path traversal pattern",
     description := "Path traversal (../) in file paths can expose sensitive files. Validate and sanitize paths using `path.resolve()` or similar.",
     severity := "high",
     documentation := some "https://owasp.org/www-community/attacks/Path_Traversal" }

/-- The `securityPatterns` array of securityAnalyzer.js, in source
order. -/
def securityPatterns : List SecPattern :=
  [evalEntry, sqlEntry, innerHTMLEntry, passwordEntry, apiKeyEntry,
   mathRandomEntry, execEntry, pathTraversalEntry]

/-- The Issue pushed for a signature hit, with `line: index + 1`. -/
def mkSecurityIssue (p : SecPattern) (path lang : String) (index : Nat) : Issue :=
  { path := path, line := ((index + 1 : Nat) : Int), severity := p.severity,
    category := "security", title := p.title, description := p.description,
    suggestion := p.suggestion, documentation := p.documentation,
    language := some lang }

/-- The inner `securityPatterns.forEach` over one line: every signature
is probed with its own persisted `lastIndex` (`sts` is the list of
`lastIndex` values aligned with `pats`). -/
def secLineScan (path lang line : String) (index : Nat) :
    List SecPattern → List Nat → List Issue × List Nat
  | [], _ => ([], [])
  | _ :: _, [] => ([], [])
  | p :: ps, li :: sts =>
    let t := testG p.pattern line li
    let rest := secLineScan path lang line index ps sts
    ((if t.1 then mkSecurityIssue p path lang index :: rest.1 else rest.1),
     t.2 :: rest.2)

/-- The `lines.forEach` of `analyzeSecurityIssues` over one file's
lines, threading every signature's `lastIndex`. -/
def secLinesScan (path lang : String) : List String → Nat → List Nat →
    List Issue × List Nat
  | [], _, sts => ([], sts)
  | l :: ls, index, sts =>
    let here := secLineScan path lang l index securityPatterns sts
    let rest := secLinesScan path lang ls (index + 1) here.2
    (here.1 ++ rest.1, rest.2)

/-- The `for (const file of files)` loop of `analyzeSecurityIssues`
(files without truthy content are skipped; regex state persists across
files). -/
def secFilesScan : List RFile → List Nat → List Issue × List Nat
  | [], sts => ([], sts)
  | f :: fs, sts =>
    if contentTruthy f.content then
      let here := secLinesScan f.path f.language (splitLines (f.content.getD "")) 0 sts
      let rest := secFilesScan fs here.2
      (here.1 ++ rest.1, rest.2)
    else secFilesScan fs sts

/-- `analyzeSecurityIssues` from securityAnalyzer.js: one call builds
the catalog fresh (every `lastIndex` starts at 0) and scans all files. -/
def analyzeSecurityIssues (files : List RFile) : List Issue :=
  (secFilesScan files (securityPatterns.map fun _ => 0)).1

/-! ## Complexity analyzer (complexityAnalyzer.js)

Three scans per file: nesting depth, function length (a brace-balance
state machine driven by a stateful `/g/` regex), and decision-point
counting over line windows. -/

/-- `(line.match(/{/g) || []).length` — occurrences of a character. -/
def countChar (c : Char) (line : String) : Nat :=
  (line.data.filter (· = c)).length

/-- A line's `(opens − closes)` brace balance. -/
def braceDelta (line : String) : Int :=
  (countChar '\x7b' line : Int) - (countChar '\x7d' line : Int)

/-- Leading-whitespace width: the length of `line.match(/^(\s*)/)[1]`. -/
def leadingSpaceCount (line : String) : Nat :=
  (line.data.takeWhile jsSpace).length

/-- The "Deeply nested code" Issue (scan 1), `line: index + 1`. -/
def mkNestingIssue (path lang : String) (index : Nat) : Issue :=
  { path := path, line := ((index + 1 : Nat) : Int), severity := "medium",
    category := "quality", title := "Deeply nested code",
    description := "This code has high nesting. Consider refactoring to improve readability and maintainability.",
    suggestion := some "Extract nested logic into separate functions or use early returns to reduce nesting.",
    language := some lang }

/-- Scan 1 of `analyzeComplexity`: non-comment lines whose indentation
exceeds `MAX_NESTING_INDENT` (10). -/
def nestingScan (path lang : String) : List String → Nat → List Issue
  | [], _ => []
  | l :: ls, index =>
    let trimmed := jsTrim l
    (if strStarts trimmed "//" || strStarts trimmed "/*" then []
     else if 10 < leadingSpaceCount l then [mkNestingIssue path lang index]
     else []) ++ nestingScan path lang ls (index + 1)

/-- `/function\s+\w+\s*\(|const\s+\w+\s*=\s*(?:async\s*)?\(|=>\s*{/g` -/
def functionStartPattern : Regex := ralts
  [rcat [rstr "function", rplus .spaceChar, rplus .wordChar,
     .starGreedy .spaceChar, .lit '('],
   rcat [rstr "const", rplus .spaceChar, rplus .wordChar, .starGreedy .spaceChar,
     .lit '=', .starGreedy .spaceChar,
     .opt (rcat [rstr "async", .starGreedy .spaceChar]), .lit '('],
   rcat [rstr "=>", .starGreedy .spaceChar, .lit '\x7b']]

/-- The "Function too long" Issue (scan 2), anchored at the function's
first line `functionStart + 1` and reporting its measured length. -/
def mkFnIssue (path lang : String) (functionStart : Nat) (functionLength : Nat) : Issue :=
  { path := path, line := ((functionStart + 1 : Nat) : Int), severity := "medium",
    category := "quality", title := "Function too long",
    description := "This function is " ++ toString functionLength ++
      " lines long (Max: 50). It violates the Single Responsibility Principle.",
    suggestion := some "Break down this function into smaller, single-responsibility functions.",
    language := some lang }

/-- The mutable locals of scan 2: `functionStart` (−1 is modelled as
`none`), `braceCount`, and the `/g/` regex object's `lastIndex`
(`functionStartPattern` is created per file, so the state is fresh per
file but persists across its lines). -/
structure FnScanState where
  functionStart : Option Nat
  braceCount : Int
  lastIndex : Nat
deriving DecidableEq

/-- One line of scan 2, exactly the source's branch structure: a line
on which `functionStartPattern.test(line)` fires (re)starts tracking
with the brace count seeded from this line alone; otherwise, while
tracking, the line's balance is added, and on reaching zero the
function has closed — emit when its span exceeds `MAX_FUNCTION_LENGTH`
(50). -/
def fnScanStep (path lang : String) (index : Nat) (line : String)
    (st : FnScanState) : List Issue × FnScanState :=
  let t := testG functionStartPattern line st.lastIndex
  if t.1 then
    ([], { functionStart := some index, braceCount := braceDelta line, lastIndex := t.2 })
  else
    match st.functionStart with
    | some fs =>
      let bc := st.braceCount + braceDelta line
      if bc = 0 then
        let functionLength := index - fs
        ((if 50 < functionLength then [mkFnIssue path lang fs functionLength] else []),
         { functionStart := none, braceCount := bc, lastIndex := t.2 })
      else ([], { functionStart := some fs, braceCount := bc, lastIndex := t.2 })
    | none => ([], { functionStart := none, braceCount := st.braceCount, lastIndex := t.2 })

/-- The `lines.forEach` of scan 2. -/
def fnScanGo (path lang : String) : List String → Nat → FnScanState → List Issue
  | [], _, _ => []
  | l :: ls, index, st =>
    let here := fnScanStep path lang index l st
    here.1 ++ fnScanGo path lang ls (index + 1) here.2

/-- Scan 2 of `analyzeComplexity` for one file:
`functionStart = -1`, `braceCount = 0`, fresh regex. -/
def fnLengthScan (path lang : String) (lines : List String) : List Issue :=
  fnScanGo path lang lines 0 ⟨none, 0, 0⟩

/-- `/\b(if|else|while|for|switch|case|catch|try|\?\?|\|\||&&)\b/g` -/
def complexityMarkers : Regex := rcat
  [.wordB,
   ralts [rstr "if", rstr "else", rstr "while", rstr "for", rstr "switch",
     rstr "case", rstr "catch", rstr "try", rstr "??", rstr "||", rstr "&&"],
   .wordB]

/-- The "High cyclomatic complexity" Issue (scan 3), anchored at the
window's first line and tagged with the measured count and the
`index − lineStart` span the source prints. -/
def mkCxIssue (path lang : String) (lineStart : Nat) (complexity : Nat)
    (span : Nat) : Issue :=
  { path := path, line := ((lineStart + 1 : Nat) : Int), severity := "high",
    category := "quality", title := "High cyclomatic complexity",
    description := "This code section has high complexity (" ++ toString complexity ++
      " decision points in " ++ toString span ++
      " lines). It is hard to test and maintain.",
    suggestion := some "Reduce nested conditionals, extract complex logic into functions, or use Polymorphism/Strategy patterns.",
    language := some lang }

/-- Scan 3 of `analyzeComplexity` (`total` is `lines.length`): add the
line's marker count; when `index - lineStart >= CHECK_WINDOW` (30) or
the line is the file's last, close the window — emit when the
accumulated count exceeds `MAX_COMPLEXITY` (10), then reset the counter
and start the next window at `index + 1`. -/
def cxScanGo (path lang : String) (total : Nat) : List String → Nat → Nat → Nat →
    List Issue
  | [], _, _, _ => []
  | l :: ls, index, complexity, lineStart =>
    let cpx := complexity + countMatches complexityMarkers l
    if 30 ≤ index - lineStart ∨ index = total - 1 then
      (if 10 < cpx then [mkCxIssue path lang lineStart cpx (index - lineStart)] else []) ++
        cxScanGo path lang total ls (index + 1) 0 (index + 1)
    else cxScanGo path lang total ls (index + 1) cpx lineStart

/-- Scan 3 of `analyzeComplexity` for one file. -/
def cxWindowScan (path lang : String) (lines : List String) : List Issue :=
  cxScanGo path lang lines.length lines 0 0 0

/-- `analyzeComplexity` from complexityAnalyzer.js: per file (skipping
files without truthy content), the three scans push into one array in
order. -/
def analyzeComplexity : List RFile → List Issue
  | [] => []
  | f :: fs =>
    (if contentTruthy f.content then
      let lines := splitLines (f.content.getD "")
      nestingScan f.path f.language lines 0 ++
        fnLengthScan f.path f.language lines ++
        cxWindowScan f.path f.language lines
     else []) ++ analyzeComplexity fs

/-! ## Comparison models written from the specification's words

These two definitions transcribe the specification's description (not
the source) of scan 2 and scan 3, for comparison with the source
models: the spec says nested function starts are *ignored* while a
function is being tracked, and that the complexity windows are *30*
lines. -/

/-- Modelled from the spec: scan 2 as §4.2 words it — "On a line
matching a function-start signature ... start tracking"; "Only one
function is tracked at a time (nested function starts while tracking
are ignored)".  Matching is the per-line signature test (no carried
regex cursor), and a start line seen while tracking only contributes
its brace balance. -/
def fnScanSpecGo (path lang : String) : List String → Nat → Option Nat → Int →
    List Issue
  | [], _, _, _ => []
  | l :: ls, index, tracking, braceCount =>
    let isStart := (testG functionStartPattern l 0).1
    match tracking with
    | none =>
      if isStart then
        fnScanSpecGo path lang ls (index + 1) (some index) (braceDelta l)
      else fnScanSpecGo path lang ls (index + 1) none braceCount
    | some fs =>
      let bc := braceCount + braceDelta l
      if bc = 0 then
        (if 50 < index - fs then [mkFnIssue path lang fs (index - fs)] else []) ++
          fnScanSpecGo path lang ls (index + 1) none 0
      else fnScanSpecGo path lang ls (index + 1) (some fs) bc

/-- Modelled from the spec: the function-length scan with nested
function starts ignored, starting idle. -/
def fnLengthSpecScan (path lang : String) (lines : List String) : List Issue :=
  fnScanSpecGo path lang lines 0 none 0

/-- Modelled from the spec: scan 3 as §4.2 words it — "partition the
file into fixed-size windows of 30 lines", sum the decision-point
markers per window, emit one issue at the window's first line when the
sum exceeds 10, a final partial window still checked.  `fuel` only
bounds the number of windows (one window consumes at least one line,
so `lines.length` suffices). -/
def cxWindows30Aux (path lang : String) : Nat → List String → Nat → List Issue
  | 0, _, _ => []
  | _ + 1, [], _ => []
  | fuel + 1, l :: ls, start =>
    let w := (l :: ls).take 30
    let cnt := (w.map (countMatches complexityMarkers)).sum
    (if 10 < cnt then [mkCxIssue path lang start cnt w.length] else []) ++
      cxWindows30Aux path lang fuel ((l :: ls).drop 30) (start + 30)

/-- Modelled from the spec: the 30-line-window complexity scan. -/
def cxWindows30 (path lang : String) (lines : List String) : List Issue :=
  cxWindows30Aux path lang lines.length lines 0

/-- The 31-line-window normal form of scan 3 (each full window spans 31
lines because the source closes a window once `index - lineStart`
reaches 30); the reported span is one less than the window's line
count, as the source prints `index - lineStart`. -/
def cxWindows31 (path lang : String) : List String → Nat → List Issue
  | [], _ => []
  | l :: ls, start =>
    let w := (l :: ls).take 31
    let cnt := (w.map (countMatches complexityMarkers)).sum
    (if 10 < cnt then [mkCxIssue path lang start cnt (w.length - 1)] else []) ++
      cxWindows31 path lang ((l :: ls).drop 31) (start + w.length)
termination_by ls _ => ls.length
decreasing_by simp [List.length_drop]; omega

/-! ## AI-assisted analyzer (aiReviewer.js)

The completion service is an external collaborator: the embedding takes
an oracle giving, per reviewed file, the outcome of the
`groq.chat.completions.create` call and of `JSON.parse` on its content.
JSON values are modelled with numbers as `Int` (the schema the prompt
requests carries only integer `line` values). -/

/-- A JSON value as `JSON.parse` yields it. -/
inductive Json where
  | null
  | bool (b : Bool)
  | num (n : Int)
  | str (s : String)
  | arr (xs : List Json)
  | obj (fields : List (String × Json))

/-- Property access `j[key]` on a parsed value: `none` is JS
`undefined` (non-objects have no such properties; for duplicate keys
`JSON.parse` keeps the last). -/
def jsonGet (j : Json) (key : String) : Option Json :=
  match j with
  | .obj fields => fields.foldl (fun acc kv => if kv.1 = key then some kv.2 else acc) none
  | _ => none

/-- JS truthiness of a property that may be `undefined`. -/
def jsonTruthy : Option Json → Bool
  | none => false
  | some .null => false
  | some (.bool b) => b
  | some (.num n) => n ≠ 0
  | some (.str s) => s ≠ ""
  | some (.arr _) => true
  | some (.obj _) => true

/-- `aiResult.issues && Array.isArray(aiResult.issues)`. -/
def issuesFieldIsArray (j : Json) : Bool :=
  match jsonGet j "issues" with
  | some (.arr _) => true
  | _ => false

/-- The elements of the `issues` array (empty when the field is absent
or not an array). -/
def issuesField (j : Json) : List Json :=
  match jsonGet j "issues" with
  | some (.arr xs) => xs
  | _ => []

/-- `v || dflt` for a string-valued property. -/
def jsStrOr (v : Option Json) (dflt : String) : String :=
  match v with
  | some (.str s) => if s = "" then dflt else s
  | _ => dflt

/-- A numeric property's value (the requested schema makes `line` a
number; 0 for anything else, which the truthiness guard rules out). -/
def jsNumOf (v : Option Json) : Int :=
  match v with
  | some (.num n) => n
  | _ => 0

/-- An optional string property (`suggestion: issue.suggestion`). -/
def jsStrOpt (v : Option Json) : Option String :=
  match v with
  | some (.str s) => some s
  | _ => none

/-- The `aiResult.issues.forEach` body of `performAIReview`: keep items
with truthy `line` and `title`, defaulting severity to "low", category
to "quality" and the description, and prefixing the title with
"[AI] ". -/
def aiExtract (path lang : String) (j : Json) : List Issue :=
  if issuesFieldIsArray j then
    (issuesField j).filterMap fun it =>
      if jsonTruthy (jsonGet it "line") && jsonTruthy (jsonGet it "title") then
        some { path := path,
               line := jsNumOf (jsonGet it "line"),
               severity := jsStrOr (jsonGet it "severity") "low",
               category := jsStrOr (jsonGet it "category") "quality",
               title := "[AI] " ++ jsStrOr (jsonGet it "title") "",
               description := jsStrOr (jsonGet it "description") "AI-identified concern.",
               suggestion := jsStrOpt (jsonGet it "suggestion"),
               language := some lang }
      else none
  else []

/-- What the external completion call produced for one file:
`serviceThrow b` — the API call threw (`b`: the message contains
"rate_limit", which breaks the loop); `emptyResponse` — the completion
had no truthy content; `response none` — content present but
`JSON.parse` threw (caught); `response (some j)` — content parsed to
`j`. -/
inductive AIOutcome where
  | serviceThrow (rateLimit : Bool)
  | emptyResponse
  | response (parsed : Option Json)

/-- The per-file issue contribution of the `try` body of
`performAIReview` once the completion outcome is known: only a parsed
response contributes, through `aiExtract`; every failure path yields
nothing (the `catch` swallows the error).  The function is total — no
failure escapes. -/
def aiFileIssues (path lang : String) (outcome : AIOutcome) : List Issue :=
  match outcome with
  | .response (some j) => aiExtract path lang j
  | _ => []

/-- A ChangedLine of the diff model (diffParser.js): `lineNumber` is
`change.ln2`, which parse-diff only sets on context lines, hence the
`Option`; `type` is "add", "normal" or "del". -/
structure ChangedLine where
  lineNumber : Option Nat
  content : String
  type : String
deriving DecidableEq

/-- A ChangedFile of the diff model (the output records of
`parseDiffData`). -/
structure ParsedFile where
  path : String
  additions : Nat
  deletions : Nat
  changedLines : List ChangedLine
  language : String
deriving DecidableEq

/-- `` `Line ${cl.lineNumber}: ${cl.content}` `` — an undefined
`lineNumber` renders as the text "undefined". -/
def changedLineText (cl : ChangedLine) : String :=
  "Line " ++ (match cl.lineNumber with
    | some n => toString n
    | none => "undefined") ++ ": " ++ cl.content

/-- The `changedLinesContext` string of `performAIReview` for one file:
the added lines of the matching diff entry, or "" when there is none. -/
def changedLinesContext (path : String) (changedFiles : List ParsedFile) : String :=
  match changedFiles.find? (fun cf => cf.path = path) with
  | none => ""
  | some cf =>
    String.intercalate "\n"
      ((cf.changedLines.filter (fun cl => cl.type = "add")).map changedLineText)

/-- The eligibility filter of `performAIReview`: truthy content, more
than 5 lines, fewer than 10000 characters, supported language. -/
def aiEligible (f : RFile) : Bool :=
  contentTruthy f.content &&
    5 < (splitLines (f.content.getD "")).length &&
    (f.content.getD "").length < 10000 &&
    ["javascript", "typescript", "python", "java"].contains f.language

/-- The `for (const file of filesToReview)` loop: a file whose
changed-lines context is empty is skipped before any service call; a
rate-limited failure breaks out of the loop; every other outcome
contributes its per-file issues.  The oracle is indexed by the file's
position in `filesToReview`. -/
def aiLoop (changedFiles : List ParsedFile) (oracle : Nat → AIOutcome) :
    List RFile → Nat → List Issue
  | [], _ => []
  | f :: fs, i =>
    if changedLinesContext f.path changedFiles = "" then
      aiLoop changedFiles oracle fs (i + 1)
    else
      match oracle i with
      | .serviceThrow true => []
      | o => aiFileIssues f.path f.language o ++ aiLoop changedFiles oracle fs (i + 1)

/-- `performAIReview` from aiReviewer.js: filter eligible files, take
at most `MAX_AI_FILES` (3), and run the review loop. -/
def performAIReview (files : List RFile) (changedFiles : List ParsedFile)
    (oracle : Nat → AIOutcome) : List Issue :=
  aiLoop changedFiles oracle ((files.filter aiEligible).take 3) 0

/-! ## Diff model builder (diffParser.js)

`parseDiffData` consumes the output of the external `parse-diff` npm
library.  That library's documented output schema is embedded here: a
file record has `from`/`to` paths, addition/deletion counts and hunks;
a change record is tagged "normal" (carrying `ln1`/`ln2`, the old- and
new-file line numbers), "add" or "del" (each carrying a single `ln`).
Property accesses on fields a tag does not carry yield `undefined`
(`Option.none`). -/

/-- A change record of the parse-diff output; `content` is the raw diff
line including its leading marker character. -/
inductive Change where
  | normal (ln1 ln2 : Nat) (content : String)
  | add (ln : Nat) (content : String)
  | del (ln : Nat) (content : String)
deriving DecidableEq

/-- `change.type`. -/
def Change.type : Change → String
  | .normal .. => "normal"
  | .add .. => "add"
  | .del .. => "del"

/-- `change.ln2`: only "normal" changes carry this property; on "add"
and "del" changes the access yields `undefined`. -/
def Change.ln2 : Change → Option Nat
  | .normal _ l _ => some l
  | _ => none

/-- `change.content`. -/
def Change.rawContent : Change → String
  | .normal _ _ c => c
  | .add _ c => c
  | .del _ c => c

/-- A hunk of the parse-diff output. -/
structure Chunk where
  oldStart : Nat
  oldLines : Nat
  newStart : Nat
  newLines : Nat
  changes : List Change
deriving DecidableEq

/-- A file entry of the parse-diff output (`from`/`to` are the old- and
new-side paths; "/dev/null" for a created or deleted file's absent
side, `none` when a header line is missing). -/
structure DiffFile where
  fromPath : Option String
  toPath : Option String
  additions : Nat
  deletions : Nat
  chunks : List Chunk
deriving DecidableEq

/-- The new-file position the unified diff itself assigns to each
change of a hunk (`none` for pure deletions, which exist only on the
old side): the counter starts at the hunk header's new-side start and
advances on "normal" and "add" changes.  This is the position GitHub's
file viewer shows for the line. -/
def newPositions (n : Nat) : List Change → List (Option Nat)
  | [] => []
  | .normal _ _ _ :: cs => some n :: newPositions (n + 1) cs
  | .add _ _ :: cs => some n :: newPositions (n + 1) cs
  | .del _ _ :: cs => none :: newPositions n cs

/-- The old-file position of each change (`none` for additions). -/
def oldPositions (n : Nat) : List Change → List (Option Nat)
  | [] => []
  | .normal _ _ _ :: cs => some n :: oldPositions (n + 1) cs
  | .del _ _ :: cs => some n :: oldPositions (n + 1) cs
  | .add _ _ :: cs => none :: oldPositions n cs

/-- The stored new-file line number of a change as parse-diff fills it:
`ln2` of a "normal" change, `ln` of an "add". -/
def lnNewOf : Change → Option Nat
  | .normal _ l _ => some l
  | .add l _ => some l
  | .del _ _ => none

/-- The stored old-file line number of a change. -/
def lnOldOf : Change → Option Nat
  | .normal l _ _ => some l
  | .del l _ => some l
  | .add _ _ => none

/-- A hunk is well numbered when its stored line numbers are exactly
the positions the diff walk assigns — which is how parse-diff computes
them from the `@@` header, so every hunk it emits satisfies this. -/
def Chunk.wellNumbered (ch : Chunk) : Bool :=
  (ch.changes.map lnNewOf == newPositions ch.newStart ch.changes) &&
    (ch.changes.map lnOldOf == oldPositions ch.oldStart ch.changes)

/-- The new-file positions of a hunk's changes (ground truth for the
comment-anchor invariant). -/
def Chunk.newNumbers (ch : Chunk) : List (Option Nat) :=
  newPositions ch.newStart ch.changes

/-- `change.content.substring(1).trim()`. -/
def stripMarker (s : String) : String := jsTrim ⟨s.data.drop 1⟩

/-- The `path.extname(filename)` part after the dot: the suffix of the
last path segment after its last '.', empty when the segment has no
'.' or only a leading one. -/
def extOf (filename : String) : String :=
  let base := (filename.splitOn "/").getLastD ""
  let rev := base.data.reverse
  let tailPart := rev.takeWhile (· ≠ '.')
  if tailPart.length = rev.length then ""
  else if base.data.length = tailPart.length + 1 then ""
  else ⟨tailPart.reverse⟩

/-- `detectLanguage` from diffParser.js: lowercase-extension lookup in
the fixed `languageMap`, "unknown" otherwise. -/
def detectLanguage (filename : String) : String :=
  let ext := (extOf filename).toLower
  if ext = "js" then "javascript"
  else if ext = "jsx" then "javascript"
  else if ext = "ts" then "typescript"
  else if ext = "tsx" then "typescript"
  else if ext = "py" then "python"
  else if ext = "java" then "java"
  else if ext = "go" then "go"
  else if ext = "rs" then "rust"
  else if ext = "php" then "php"
  else if ext = "rb" then "ruby"
  else if ext = "swift" then "swift"
  else if ext = "kt" then "kotlin"
  else if ext = "cs" then "csharp"
  else if ext = "json" then "json"
  else if ext = "yml" then "yaml"
  else if ext = "yaml" then "yaml"
  else if ext = "md" then "markdown"
  else "unknown"

/-- The ChangedLine records one hunk contributes: "add" and "normal"
changes are retained, `lineNumber` is `change.ln2`, the marker is
stripped and the content trimmed. -/
def chunkChangedLines (ch : Chunk) : List ChangedLine :=
  ch.changes.filterMap fun c =>
    if c.type = "add" || c.type = "normal" then
      some ⟨c.ln2, stripMarker c.rawContent, c.type⟩
    else none

/-- `parseDiffData` from diffParser.js: per file, resolve the path as
`file.to !== "/dev/null" ? file.to : file.from`, drop the entry when
the result is falsy or "/dev/null", collect the changed lines of all
hunks, and detect the language. -/
def parseDiffData (files : List DiffFile) : List ParsedFile :=
  files.filterMap fun file =>
    let filePath := if file.toPath ≠ some "/dev/null" then file.toPath else file.fromPath
    if filePath = none || filePath = some "" || filePath = some "/dev/null" then none
    else
      some { path := filePath.getD "",
             additions := file.additions,
             deletions := file.deletions,
             changedLines := file.chunks.foldr (fun ch acc => chunkChangedLines ch ++ acc) [],
             language := detectLanguage (filePath.getD "") }

/-! ## Concrete sample inputs used by witnesses and counterexamples -/

/-- The single hunk of a diff that creates `a.js` with one line
(`@@ -0,0 +1 @@` followed by `+x`), as parse-diff represents it. -/
def chNewFile : Chunk :=
  { oldStart := 0, oldLines := 0, newStart := 1, newLines := 1,
    changes := [.add 1 "+x"] }

/-- The parse-diff file entry of that diff. -/
def dfNewFile : DiffFile :=
  { fromPath := some "/dev/null", toPath := some "a.js",
    additions := 1, deletions := 0, chunks := [chNewFile] }

/-- A file whose two lines each contain a direct eval call. -/
def secStateFile : RFile :=
  { path := "a.js", additions := 2, content := some "eval(a)\neval(b)",
    language := "javascript" }

/-- A one-line file with a direct eval call. -/
def secWitnessFile : RFile :=
  { path := "w.js", additions := 1, content := some "eval(x)",
    language := "javascript" }

/-- The Issue the security analyzer emits for `secWitnessFile`. -/
def secWitnessIssue : Issue := mkSecurityIssue evalEntry "w.js" "javascript" 0

/-- Marker issues distinguishing the four analyzers' outputs. -/
def sampleStaticIssue : Issue :=
  { path := "s.js", line := 1, severity := "high", category := "style",
    title := "lint-style marker", description := "d" }

/-- A marker security issue. -/
def sampleSecurityIssue : Issue :=
  { path := "s.js", line := 2, severity := "critical", category := "security",
    title := "security marker", description := "d" }

/-- A marker complexity issue. -/
def sampleComplexityIssue : Issue :=
  { path := "s.js", line := 3, severity := "medium", category := "quality",
    title := "complexity marker", description := "d" }

/-- A marker AI issue. -/
def sampleAIIssue : Issue :=
  { path := "s.js", line := 4, severity := "low", category := "quality",
    title := "ai marker", description := "d" }

/-- A critical-severity issue for the scoring witness. -/
def sampleCritical : Issue :=
  { path := "c.js", line := 1, severity := "critical", category := "security",
    title := "t", description := "d" }

/-- Ten one-statement lines of JavaScript. -/
def tenLineContent : String :=
  String.intercalate "\n" (List.replicate 10 "x = x + 1;")

/-- An eligible file for the AI analyzer: ten lines, JavaScript. -/
def aiSampleFile : RFile :=
  { path := "ai.js", additions := 1, content := some tenLineContent,
    language := "javascript" }

/-- A diff entry for `aiSampleFile` with one added line, so the
changed-lines context is non-empty. -/
def aiSampleChanged : ParsedFile :=
  { path := "ai.js", additions := 1, deletions := 0,
    changedLines := [⟨some 1, "x = x + 1;", "add"⟩], language := "javascript" }

/-- A completion response whose single issue claims line 9999. -/
def aiSampleResponse : Json :=
  .obj [("issues", .arr [.obj [("line", .num 9999), ("title", .str "Bad"),
    ("severity", .str "high")]])]

/-- The oracle: every service call parses to `aiSampleResponse`. -/
def aiSampleOracle : Nat → AIOutcome := fun _ => .response (some aiSampleResponse)

/-- A parsed completion whose `issues` field is a number, not an array. -/
def aiBadIssuesJson : Json := .obj [("issues", .num 5)]

/-- The 31-line file of the window-size counterexample: thirty empty
lines, then a line with eleven decision-point tokens. -/
def cxSampleLines : List String :=
  List.replicate 30 "" ++ ["if if if if if if if if if if if"]

/-- The 59-line file of the nested-function-start counterexample: a
const-bound arrow function, an indented nested one on the next line,
55 filler statements, and two closing braces. -/
def fnSampleLines : List String :=
  ["const f = (x) => \x7b", "           const g = (y) => \x7b"] ++
    List.replicate 55 "x;" ++ ["\x7d", "\x7d"]

/-! ## Theorems -/

/-- C2: for every list of issues and every list of reviewed files,
`calculateScore` returns an integer (its codomain is `Int`) in the
closed interval [0, 100], because the final step clamps the running
total with `Math.max(0, Math.min(100, ...))`. -/
theorem calculateScore_in_range (issues : List Issue) (files : List RFile) :
    0 ≤ calculateScore issues files ∧ calculateScore issues files ≤ 100 := by
  unfold calculateScore
  exact ⟨le_max_left 0 _, max_le (by norm_num) (min_le_left _ _)⟩

/-- C9: appending one Critical-severity issue to a fixed input lowers
the pre-clamp score total by exactly 25 (the critical penalty), and the
final clamped score never increases. -/
theorem calculateScore_critical_delta (issues : List Issue) (files : List RFile)
    (i : Issue) (h : i.severity = "critical") :
    preClampScore (issues ++ [i]) files = preClampScore issues files - 25 ∧
    calculateScore (issues ++ [i]) files ≤ calculateScore issues files := by
  have hpen : severityPenalty i.severity = 25 := by rw [h]; rfl
  have h1 : scoreAfterIssues (issues ++ [i]) = scoreAfterIssues issues - 25 := by
    simp [scoreAfterIssues, List.foldl_append, hpen]
  have h2 : ∀ s : Int, sizeAdjusted (s - 25) files = sizeAdjusted s files - 25 := by
    intro s; unfold sizeAdjusted; split <;> ring
  have h3 : ∀ s : Int, testAdjusted (s - 25) files = testAdjusted s files - 25 := by
    intro s; unfold testAdjusted
    split
    · ring
    · split <;> ring
  have hd : preClampScore (issues ++ [i]) files = preClampScore issues files - 25 := by
    unfold preClampScore
    rw [h1, h2, h3]
  refine ⟨hd, ?_⟩
  unfold calculateScore
  rw [hd]
  omega

/-- Witness for C9 at a concrete input: the empty issue list, no files,
and one critical issue. -/
theorem calculateScore_critical_delta_witness :
    preClampScore ([] ++ [sampleCritical]) [] = preClampScore [] [] - 25 ∧
    calculateScore ([] ++ [sampleCritical]) [] ≤ calculateScore [] [] :=
  calculateScore_critical_delta [] [] sampleCritical rfl

/-- C4 counterexample: with one marker issue per analyzer, the
aggregate is not the claimed "security, complexity, lint-style, AI"
order — the lint-style (static) issues come first in the source's
spread. -/
theorem aggregateOrder_not_security_first :
    combineIssues [sampleStaticIssue] [sampleSecurityIssue] [sampleComplexityIssue]
        [sampleAIIssue] ≠
      [sampleSecurityIssue, sampleComplexityIssue, sampleStaticIssue, sampleAIIssue] := by
  decide

/-- C4 as amended: the aggregate Issue list is the concatenation of the
four analyzers' outputs in the source's fixed order — lint-style
(static) first, then security, then complexity, then AI — so each
analyzer's block occupies a contiguous region at the corresponding
offset. -/
theorem aggregateOrder_static_first (staticIssues securityIssues complexityIssues
    aiReviews : List Issue) :
    combineIssues staticIssues securityIssues complexityIssues aiReviews =
      staticIssues ++ securityIssues ++ complexityIssues ++ aiReviews ∧
    (combineIssues staticIssues securityIssues complexityIssues aiReviews).take
        staticIssues.length = staticIssues ∧
    ((combineIssues staticIssues securityIssues complexityIssues aiReviews).drop
        staticIssues.length).take securityIssues.length = securityIssues ∧
    (((combineIssues staticIssues securityIssues complexityIssues aiReviews).drop
        staticIssues.length).drop securityIssues.length).take
        complexityIssues.length = complexityIssues ∧
    (((combineIssues staticIssues securityIssues complexityIssues aiReviews).drop
        staticIssues.length).drop securityIssues.length).drop
        complexityIssues.length = aiReviews := by
  refine ⟨rfl, ?_, ?_, ?_, ?_⟩ <;>
    simp [combineIssues, List.take_left, List.drop_left]

/-- C10: the inline-comment batch is exactly the qualifying issues
(truthy `line` and `path`) in aggregate order, truncated to the first
30, and its length never exceeds 30. -/
theorem reviewBatch_filter_take30 (issues : List Issue) :
    postReviewComments issues =
      ((issues.filter qualifiesForComment).take 30).map toReviewComment ∧
    (postReviewComments issues).length ≤ 30 ∧
    (postReviewComments issues).map (fun c => (c.path, c.line)) =
      ((issues.filter qualifiesForComment).take 30).map fun i => (i.path, i.line) := by
  have hm : postReviewComments issues =
      ((issues.filter qualifiesForComment).take 30).map toReviewComment := by
    unfold postReviewComments
    rw [← List.map_take]
  refine ⟨hm, ?_, ?_⟩
  · rw [hm]
    simp
  · rw [hm, List.map_map]
    rfl

/-- C1: on the diff of a newly created one-line file, the hunk is well
numbered (its `add` change sits at new-file position 1), yet the
emitted ChangedLine carries no line number at all — `change.ln2` is
undefined on an `add` change, so the builder loses every added line's
new-file position. -/
theorem parseDiffData_drops_added_line_numbers :
    Chunk.wellNumbered chNewFile = true ∧
    Chunk.newNumbers chNewFile = [some 1] ∧
    (parseDiffData [dfNewFile]).map (fun f => f.changedLines.map (·.lineNumber)) =
      [[none]] := by
  decide

/-- C3: the security signatures are `/g/` regexes probed with the
stateful `test`, so matches are not independent across lines: a file
whose lines 1 and 2 both contain a direct eval call yields only the
line-1 issue — the persisted `lastIndex` makes the line-2 probe resume
past the match position and miss. -/
theorem analyzeSecurityIssues_stateful_skip :
    (analyzeSecurityIssues [secStateFile]).map (fun i => (i.line, i.title)) =
      [(1, "Dangerous eval() usage")] := by
  decide

/-- C6: when the completion response fails to parse as JSON, or parses
to a value whose `issues` field is absent or not an array, the AI
analyzer contributes zero issues for that file; `aiFileIssues` is a
total function (the `catch` swallows the per-file failure), so no error
propagates. -/
theorem aiReview_bad_response_no_issues (path lang : String) (j : Json)
    (h : issuesFieldIsArray j = false) :
    aiFileIssues path lang (.response (some j)) = [] ∧
    aiFileIssues path lang (.response none) = [] := by
  refine ⟨?_, rfl⟩
  simp [aiFileIssues, aiExtract, h]

/-- Witness for C6 at a concrete input: a parsed response whose
`issues` field is the number 5. -/
theorem aiReview_bad_response_no_issues_witness :
    aiFileIssues "ai.js" "javascript" (.response (some aiBadIssuesJson)) = [] ∧
    aiFileIssues "ai.js" "javascript" (.response none) = [] :=
  aiReview_bad_response_no_issues "ai.js" "javascript" aiBadIssuesJson (by decide)

/-- C5 counterexample: the AI analyzer forwards the completion's `line`
value unvalidated — for a ten-line file, a response claiming line 9999
produces an Issue anchored at line 9999, which is not a line of the
file. -/
theorem aiIssue_line_exceeds_file :
    (performAIReview [aiSampleFile] [aiSampleChanged] aiSampleOracle).map (·.line) =
      [9999] ∧
    ((splitLines (aiSampleFile.content.getD "")).length : Int) = 10 ∧
    ¬((9999 : Int) ≤ 10) := by
  decide

/-- C7 counterexample: on a 31-line file whose only decision-point
tokens (eleven of them) sit on line 31, the source's window scan emits
its issue anchored at line 1 — the window closing at `index -
lineStart = 30` spans lines 1..31 — while the spec's 30-line
partition would put line 31 alone in a second window and anchor the
issue there. -/
theorem complexityWindow_not_thirty :
    (cxWindowScan "a.js" "javascript" cxSampleLines).map (·.line) = [1] ∧
    (cxWindows30 "a.js" "javascript" cxSampleLines).map (·.line) = [31] := by
  decide

/-- C8 counterexample: a file opening a const-bound arrow function on
line 1 and a nested one on line 2 (closing braces on lines 58 and 59).
The source restarts tracking at line 2 and emits "Function too long"
anchored at line 2 with span 56; the spec's ignore-nested-starts scan
would keep tracking from line 1 and anchor at line 1 with span 58. -/
theorem fnScan_restart_not_ignore :
    (fnLengthScan "a.js" "javascript" fnSampleLines).map (·.line) = [2] ∧
    (fnLengthSpecScan "a.js" "javascript" fnSampleLines).map (·.line) = [1] := by
  decide

/-- C8 as amended: the function-length scan's per-line transition — a
line on which the (stateful) function-start test fires always
(re)starts tracking at that line with `braceCount` seeded from that
line's own balance, dropping any tracked candidate without emission
(nested starts are *not* ignored); on a non-start line while idle
nothing happens; while tracking, the line's (opens − closes) is added,
and when the count returns to zero the scan emits a Medium Quality
issue anchored at the tracked function's first line iff the span
exceeds 50. -/
theorem fnScan_restart_semantics :
    (∀ (path lang : String) (index : Nat) (line : String) (st : FnScanState),
      (testG functionStartPattern line st.lastIndex).1 = true →
      fnScanStep path lang index line st =
        ([], ⟨some index, braceDelta line, (testG functionStartPattern line st.lastIndex).2⟩)) ∧
    (∀ (path lang : String) (index : Nat) (line : String) (st : FnScanState),
      (testG functionStartPattern line st.lastIndex).1 = false →
      st.functionStart = none →
      fnScanStep path lang index line st =
        ([], ⟨none, st.braceCount, (testG functionStartPattern line st.lastIndex).2⟩)) ∧
    (∀ (path lang : String) (index : Nat) (line : String) (st : FnScanState) (fs : Nat),
      (testG functionStartPattern line st.lastIndex).1 = false →
      st.functionStart = some fs →
      st.braceCount + braceDelta line ≠ 0 →
      fnScanStep path lang index line st =
        ([], ⟨some fs, st.braceCount + braceDelta line,
          (testG functionStartPattern line st.lastIndex).2⟩)) ∧
    (∀ (path lang : String) (index : Nat) (line : String) (st : FnScanState) (fs : Nat),
      (testG functionStartPattern line st.lastIndex).1 = false →
      st.functionStart = some fs →
      st.braceCount + braceDelta line = 0 →
      fnScanStep path lang index line st =
        ((if 50 < index - fs then [mkFnIssue path lang fs (index - fs)] else []),
         ⟨none, 0, (testG functionStartPattern line st.lastIndex).2⟩)) := by
  refine ⟨?_, ?_, ?_, ?_⟩
  · intro path lang index line st h
    simp [fnScanStep, h]
  · intro path lang index line st h hst
    simp [fnScanStep, h, hst]
  · intro path lang index line st fs h hst hbc
    simp [fnScanStep, h, hst, hbc]
  · intro path lang index line st fs h hst hbc
    simp [fnScanStep, h, hst, hbc]

/-- Unfolding equation of the 31-line-window normal form on a
non-empty line list. -/
theorem cxWindows31_unfold (path lang : String) (t : List String) (ht : t ≠ [])
    (start : Nat) :
    cxWindows31 path lang t start =
      (if 10 < ((t.take 31).map (countMatches complexityMarkers)).sum then
        [mkCxIssue path lang start ((t.take 31).map (countMatches complexityMarkers)).sum
          ((t.take 31).length - 1)]
       else []) ++
        cxWindows31 path lang (t.drop 31) (start + (t.take 31).length) := by
  obtain ⟨l, t', rfl⟩ := List.exists_cons_of_ne_nil ht
  simp only [cxWindows31]

/-- The window scan, entered mid-window with `d` lines already
consumed and `acc` markers already counted, completes the current
window (which extends to 31 lines in total) and then proceeds in
31-line windows. -/
theorem cxScanGo_eq_windows (path lang : String) (total : Nat) :
    ∀ (lines : List String) (d acc ls : Nat), lines ≠ [] → d ≤ 30 →
      ls + d + lines.length = total →
      cxScanGo path lang total lines (ls + d) acc ls =
        (if 10 < acc + ((lines.take (31 - d)).map (countMatches complexityMarkers)).sum then
          [mkCxIssue path lang ls
            (acc + ((lines.take (31 - d)).map (countMatches complexityMarkers)).sum)
            (d + (lines.take (31 - d)).length - 1)]
         else []) ++
          cxWindows31 path lang (lines.drop (31 - d)) (ls + d + (lines.take (31 - d)).length) := by
  intro lines
  induction lines with
  | nil => intro d acc ls h; exact absurd rfl h
  | cons l t ih =>
    intro d acc ls _ hd htot
    have h31 : 31 - d = (30 - d) + 1 := by omega
    rw [h31]
    simp only [cxScanGo, List.take_succ_cons, List.drop_succ_cons, List.map_cons,
      List.sum_cons, List.length_cons]
    by_cases ht : t = []
    · subst ht
      simp only [List.length_cons, List.length_nil] at htot
      rw [if_pos (Or.inr (by omega))]
      simp only [cxScanGo, List.take_nil, List.map_nil, List.sum_nil, List.drop_nil,
        List.length_nil, List.append_nil]
      have e1 : ls + d - ls = d := by omega
      have e2 : acc + (countMatches complexityMarkers l + 0) =
          acc + countMatches complexityMarkers l := by omega
      have e3 : d + (0 + 1) - 1 = d := by omega
      rw [e1, e2, e3]
      simp [cxWindows31]
    · by_cases hd30 : 30 ≤ d
      · have hde : d = 30 := by omega
        subst hde
        simp only [List.length_cons] at htot
        rw [if_pos (Or.inl (by omega))]
        simp only [Nat.sub_self, List.take_zero, List.drop_zero, List.map_nil,
          List.sum_nil, List.length_nil]
        have e1 : ls + 30 - ls = 30 := by omega
        have e2 : ls + 30 + 1 = ls + 31 + 0 := by omega
        have e3 : ls + 30 + (0 + 1) = ls + 31 := by omega
        rw [e1, e2, e3, ih 0 0 (ls + 31) ht (by omega) (by omega),
          cxWindows31_unfold path lang t ht (ls + 31)]
        simp only [Nat.zero_add, Nat.add_zero, Nat.add_sub_cancel]
      · simp only [List.length_cons] at htot
        have htl : 0 < t.length := List.length_pos.mpr ht
        rw [if_neg (by omega)]
        have e4 : ls + d + 1 = ls + (d + 1) := by omega
        rw [e4, ih (d + 1) (acc + countMatches complexityMarkers l) ls ht (by omega)
          (by omega)]
        have e5 : 31 - (d + 1) = 30 - d := by omega
        rw [e5]
        set C := countMatches complexityMarkers l with hC
        set S := (List.map (countMatches complexityMarkers) (t.take (30 - d))).sum with hS
        set L := (t.take (30 - d)).length with hL
        have e6 : acc + C + S = acc + (C + S) := by omega
        have e7 : d + 1 + L - 1 = d + (L + 1) - 1 := by omega
        have e8 : ls + (d + 1) + L = ls + d + (L + 1) := by omega
        rw [e6, e7, e8]

/-- C7 as amended: the complexity scan partitions the file into
fixed-size windows of 31 lines (the boundary fires once
`index - lineStart` reaches 30), with the final partial window still
checked; within each window it sums the decision-point markers, emits
exactly one High Quality issue anchored at the window's first line
whenever the sum exceeds 10 (tagged with the count and with a span one
less than the window's line count), and resets the counter at every
window boundary. -/
theorem complexityWindows_are_31 (path lang : String) (lines : List String) :
    cxWindowScan path lang lines = cxWindows31 path lang lines 0 := by
  cases lines with
  | nil => simp [cxWindowScan, cxScanGo, cxWindows31]
  | cons l t =>
    have h := cxScanGo_eq_windows path lang (l :: t).length (l :: t) 0 0 0
      (by simp) (by omega) (by simp)
    simp only [Nat.zero_add, Nat.add_zero, Nat.sub_zero] at h
    rw [cxWindowScan, h, cxWindows31_unfold path lang (l :: t) (by simp) 0]
    simp only [Nat.zero_add]



/-- Every issue one line's signature sweep emits is anchored at that
line (`index + 1`) with the scanned file's path. -/
theorem secLineScan_mem (path lang line : String) (index : Nat) :
    ∀ (pats : List SecPattern) (sts : List Nat) (i : Issue),
      i ∈ (secLineScan path lang line index pats sts).1 →
      i.path = path ∧ i.line = ((index + 1 : Nat) : Int) := by
  intro pats
  induction pats with
  | nil => intro sts i h; simp [secLineScan] at h
  | cons p ps ih =>
    intro sts i h
    cases sts with
    | nil => simp [secLineScan] at h
    | cons li rest =>
      simp only [secLineScan] at h
      split at h
      · rcases List.mem_cons.mp h with h1 | h1
        · subst h1; exact ⟨rfl, rfl⟩
        · exact ih rest i h1
      · exact ih rest i h

/-- Every issue the per-file security sweep emits from line `index`
onward is anchored strictly after `index` and within the scanned
lines. -/
theorem secLinesScan_mem (path lang : String) :
    ∀ (lines : List String) (index : Nat) (sts : List Nat) (i : Issue),
      i ∈ (secLinesScan path lang lines index sts).1 →
      i.path = path ∧ (index : Int) < i.line ∧ i.line ≤ (index : Int) + lines.length := by
  intro lines
  induction lines with
  | nil => intro index sts i h; simp [secLinesScan] at h
  | cons l ls ih =>
    intro index sts i h
    simp only [secLinesScan] at h
    rcases List.mem_append.mp h with h1 | h1
    · obtain ⟨hp, hl⟩ := secLineScan_mem path lang l index securityPatterns sts i h1
      refine ⟨hp, ?_, ?_⟩
      · rw [hl]; push_cast; omega
      · rw [hl]; simp only [List.length_cons]; push_cast; omega
    · obtain ⟨hp, h2, h3⟩ := ih (index + 1) _ i h1
      refine ⟨hp, ?_, ?_⟩
      · push_cast at h2 ⊢; omega
      · simp only [List.length_cons]; push_cast at h3 ⊢; omega

/-- Every issue the security analyzer's file loop emits is anchored at
an existing line of one of the scanned files with truthy content. -/
theorem secFilesScan_mem :
    ∀ (files : List RFile) (sts : List Nat) (i : Issue),
      i ∈ (secFilesScan files sts).1 →
      ∃ f, f ∈ files ∧ i.path = f.path ∧ contentTruthy f.content = true ∧
        1 ≤ i.line ∧ i.line ≤ ((splitLines (f.content.getD "")).length : Int) := by
  intro files
  induction files with
  | nil => intro sts i h; simp [secFilesScan] at h
  | cons f fs ih =>
    intro sts i h
    cases hc : contentTruthy f.content with
    | false =>
      simp only [secFilesScan, hc, Bool.false_eq_true, if_false] at h
      obtain ⟨g, hg, hrest⟩ := ih sts i h
      exact ⟨g, List.mem_cons_of_mem _ hg, hrest⟩
    | true =>
      simp only [secFilesScan, hc, if_true] at h
      rcases List.mem_append.mp h with h1 | h1
      · obtain ⟨hp, h2, h3⟩ := secLinesScan_mem f.path f.language _ 0 sts i h1
        refine ⟨f, List.mem_cons_self f fs, hp, hc, ?_, ?_⟩
        · push_cast at h2; omega
        · push_cast at h3 ⊢; omega
      · obtain ⟨g, hg, hrest⟩ := ih _ i h1
        exact ⟨g, List.mem_cons_of_mem _ hg, hrest⟩

/-- Every nesting-depth issue is anchored at an existing scanned
line. -/
theorem nestingScan_mem (path lang : String) :
    ∀ (lines : List String) (index : Nat) (i : Issue),
      i ∈ nestingScan path lang lines index →
      i.path = path ∧ (index : Int) < i.line ∧ i.line ≤ (index : Int) + lines.length := by
  intro lines
  induction lines with
  | nil => intro index i h; simp [nestingScan] at h
  | cons l ls ih =>
    intro index i h
    simp only [nestingScan] at h
    rcases List.mem_append.mp h with h1 | h1
    · split at h1
      · simp at h1
      · split at h1
        · rcases List.mem_singleton.mp h1 with rfl
          refine ⟨rfl, ?_, ?_⟩
          · show (index : Int) < ((index + 1 : Nat) : Int)
            push_cast; omega
          · show ((index + 1 : Nat) : Int) ≤ (index : Int) + ((l :: ls).length : Int)
            simp only [List.length_cons]; push_cast; omega
        · simp at h1
    · obtain ⟨hp, h2, h3⟩ := ih (index + 1) i h1
      refine ⟨hp, ?_, ?_⟩
      · push_cast at h2 ⊢; omega
      · simp only [List.length_cons]; push_cast at h3 ⊢; omega

/-- An issue emitted by one function-length step is the
"Function too long" issue of the currently tracked function. -/
theorem fnScanStep_mem (path lang : String) (index : Nat) (line : String)
    (st : FnScanState) (i : Issue)
    (h : i ∈ (fnScanStep path lang index line st).1) :
    ∃ fs, st.functionStart = some fs ∧ i = mkFnIssue path lang fs (index - fs) := by
  obtain ⟨ofs, bc, li⟩ := st
  simp only [fnScanStep] at h
  split at h
  · simp at h
  · cases ofs with
    | none => simp at h
    | some fs =>
      simp only at h
      split at h
      · split at h
        · rcases List.mem_singleton.mp h with rfl
          exact ⟨fs, rfl, rfl⟩
        · simp at h
      · simp at h

/-- The function-length step preserves the invariant that any tracked
function started strictly before the next line. -/
theorem fnScanStep_state (path lang : String) (index : Nat) (line : String)
    (st : FnScanState)
    (hinv : ∀ fs, st.functionStart = some fs → fs < index) :
    ∀ fs', (fnScanStep path lang index line st).2.functionStart = some fs' →
      fs' < index + 1 := by
  obtain ⟨ofs, bc, li⟩ := st
  intro fs' h
  simp only [fnScanStep] at h
  split at h
  · simp at h; omega
  · cases ofs with
    | none => simp at h
    | some fs =>
      simp only at h
      split at h
      · simp at h
      · simp at h
        have := hinv fs rfl
        omega

/-- Every function-length issue is anchored at an existing scanned
line (given the tracking invariant). -/
theorem fnScanGo_mem (path lang : String) :
    ∀ (lines : List String) (index : Nat) (st : FnScanState),
      (∀ fs, st.functionStart = some fs → fs < index) →
      ∀ i, i ∈ fnScanGo path lang lines index st →
        i.path = path ∧ 1 ≤ i.line ∧ i.line ≤ (index : Int) + lines.length := by
  intro lines
  induction lines with
  | nil => intro index st hinv i h; simp [fnScanGo] at h
  | cons l ls ih =>
    intro index st hinv i h
    simp only [fnScanGo] at h
    rcases List.mem_append.mp h with h1 | h1
    · obtain ⟨fs, hfs, rfl⟩ := fnScanStep_mem path lang index l st i h1
      have hlt := hinv fs hfs
      refine ⟨rfl, ?_, ?_⟩
      · show (1 : Int) ≤ ((fs + 1 : Nat) : Int)
        push_cast; omega
      · show ((fs + 1 : Nat) : Int) ≤ (index : Int) + ((l :: ls).length : Int)
        simp only [List.length_cons]; push_cast; omega
    · have hinv' := fnScanStep_state path lang index l st hinv
      obtain ⟨hp, h2, h3⟩ := ih (index + 1) _ hinv' i h1
      refine ⟨hp, h2, ?_⟩
      simp only [List.length_cons]; push_cast at h3 ⊢; omega

/-- Every complexity-window issue is anchored at an existing scanned
line (the window start never exceeds the current index). -/
theorem cxScanGo_mem (path lang : String) (total : Nat) :
    ∀ (lines : List String) (index complexity lineStart : Nat),
      lineStart ≤ index →
      ∀ i, i ∈ cxScanGo path lang total lines index complexity lineStart →
        i.path = path ∧ 1 ≤ i.line ∧ i.line ≤ (index : Int) + lines.length := by
  intro lines
  induction lines with
  | nil => intro index c ls hls i h; simp [cxScanGo] at h
  | cons l t ih =>
    intro index c ls hls i h
    simp only [cxScanGo] at h
    split at h
    · rcases List.mem_append.mp h with h1 | h1
      · split at h1
        · rcases List.mem_singleton.mp h1 with rfl
          refine ⟨rfl, ?_, ?_⟩
          · show (1 : Int) ≤ ((ls + 1 : Nat) : Int)
            push_cast; omega
          · show ((ls + 1 : Nat) : Int) ≤ (index : Int) + ((l :: t).length : Int)
            simp only [List.length_cons]; push_cast; omega
        · simp at h1
      · obtain ⟨hp, h2, h3⟩ := ih (index + 1) 0 (index + 1) (le_refl _) i h1
        refine ⟨hp, h2, ?_⟩
        simp only [List.length_cons]; push_cast at h3 ⊢; omega
    · obtain ⟨hp, h2, h3⟩ := ih (index + 1) _ ls (by omega) i h
      refine ⟨hp, h2, ?_⟩
      simp only [List.length_cons]; push_cast at h3 ⊢; omega

/-- Every issue of the complexity analyzer is anchored at an existing
line of one of the analyzed files with truthy content. -/
theorem analyzeComplexity_mem :
    ∀ (files : List RFile) (i : Issue), i ∈ analyzeComplexity files →
      ∃ f, f ∈ files ∧ i.path = f.path ∧ contentTruthy f.content = true ∧
        1 ≤ i.line ∧ i.line ≤ ((splitLines (f.content.getD "")).length : Int) := by
  intro files
  induction files with
  | nil => intro i h; simp [analyzeComplexity] at h
  | cons f fs ih =>
    intro i h
    simp only [analyzeComplexity] at h
    rcases List.mem_append.mp h with h1 | h1
    · cases hc : contentTruthy f.content with
      | false =>
        simp only [hc, Bool.false_eq_true, if_false] at h1
        simp at h1
      | true =>
        simp only [hc, if_true] at h1
        rcases List.mem_append.mp h1 with h2 | h2
        · rcases List.mem_append.mp h2 with h3 | h3
          · obtain ⟨hp, hb1, hb2⟩ := nestingScan_mem f.path f.language _ 0 i h3
            refine ⟨f, List.mem_cons_self f fs, hp, hc, ?_, ?_⟩
            · push_cast at hb1; omega
            · push_cast at hb2 ⊢; omega
          · obtain ⟨hp, hb1, hb2⟩ := fnScanGo_mem f.path f.language _ 0
              ⟨none, 0, 0⟩ (by intro fs' hfs'; simp at hfs') i h3
            refine ⟨f, List.mem_cons_self f fs, hp, hc, hb1, ?_⟩
            push_cast at hb2 ⊢; omega
        · obtain ⟨hp, hb1, hb2⟩ := cxScanGo_mem f.path f.language _ _ 0 0 0
            (le_refl 0) i h2
          refine ⟨f, List.mem_cons_self f fs, hp, hc, hb1, ?_⟩
          push_cast at hb2 ⊢; omega
    · obtain ⟨g, hg, hrest⟩ := ih i h1
      exact ⟨g, List.mem_cons_of_mem _ hg, hrest⟩

/-- C5 as amended: every Issue produced by the security analyzer or
the complexity analyzer is anchored at a line that exists in the
new-version content of one of the analyzed files
(`1 <= line <= number of lines`); AI-sourced issue lines, by contrast,
are copied from the completion response with only a truthiness check
(see the counterexample). -/
theorem security_complexity_lines_exist (files : List RFile) (i : Issue)
    (h : i ∈ analyzeSecurityIssues files ++ analyzeComplexity files) :
    ∃ f, f ∈ files ∧ i.path = f.path ∧ contentTruthy f.content = true ∧
      1 ≤ i.line ∧ i.line ≤ ((splitLines (f.content.getD "")).length : Int) := by
  rcases List.mem_append.mp h with h1 | h1
  · exact secFilesScan_mem files _ i h1
  · exact analyzeComplexity_mem files i h1

/-- Witness for C5 as amended: the eval issue of a concrete one-line
file anchors at its line 1. -/
theorem security_complexity_lines_exist_witness :
    ∃ f, f ∈ [secWitnessFile] ∧ secWitnessIssue.path = f.path ∧
      contentTruthy f.content = true ∧ 1 ≤ secWitnessIssue.line ∧
      secWitnessIssue.line ≤ ((splitLines (f.content.getD "")).length : Int) :=
  security_complexity_lines_exist [secWitnessFile] secWitnessIssue (by decide)

end ReviewBot
